import Mathlib

/-!
Verification of the Mechanical-Tolerances-Calculator library (src/index.js)
against its natural-language specification.

The JavaScript source is shallowly embedded:

* JS numbers are modelled exactly.  A finite JS number is a canonical
  fraction `JQ` (numerator, positive reduced denominator); the special
  values `NaN`, `Infinity`, `-Infinity` are the extra constructors of
  `PNum`.  All arithmetic is exact; binary floating-point rounding is not
  modelled (none of the verified properties depends on it).
* `toFixed(3)` produces a string in JS.  Every use of such a string in the
  source is either display-only or is coerced back to a number by a
  relational operator or by `parseFloat`; the model therefore keeps the
  numeric content (the value rounded to 3 decimals, half away from zero).
* Display-only data (the `reason`, `concludedReason` and `outcome`
  narrative strings and the `uncomputed_specification_bounds` rendering)
  is not embedded: no verified claim reads it, and in
  `checkMultipleMeasurementsFor` the computed `outcome` string is not even
  part of the returned object.
* A JS function call can end in three observably different ways: a normal
  return, a returned object carrying an error discriminator, or a thrown
  exception (e.g. calling `.trim()` on a non-string).  `JsOutcome`
  distinguishes the three.
* The reference table `Tolerances.json` is not part of the repository
  sources; following the spec (section 1, OUT OF SCOPE, and section 6) it
  is treated as a parameter: a map from category to an ordered list of
  (designation, row list) pairs whose rows carry numeric
  `minimum_diameter`, `maximum_diameter`, `upper_deviation`,
  `lower_deviation` and IT-grade magnitudes.
-/

/-- Fuel-driven Euclidean algorithm.  Structural recursion on the fuel, so
the kernel can evaluate it (the library `Nat.gcd` is defined by
well-founded recursion, which the kernel cannot unfold). -/
def gcdFuel : Nat → Nat → Nat → Nat
  | 0, _, n => n
  | fuel+1, m, n => if m = 0 then n else gcdFuel fuel (n % m) m

/-- Greatest common divisor; fuel `m+1` always suffices because the first
argument strictly decreases. -/
def gcdF (m n : Nat) : Nat := gcdFuel (m+1) m n

/-- An exact rational number in canonical form (reduced, positive
denominator), the model of a finite JS number.  Values are only created
through `qMk` and the arithmetic operations, which normalize. -/
structure JQ where
  num : Int
  den : Nat
deriving DecidableEq, Repr

/-- Normalizing constructor: reduce `n / d` by the gcd.  `d = 0` never
arises from the embedded code; it is mapped to the canonical zero to keep
the function total. -/
def qMk (n : Int) (d : Nat) : JQ :=
  if d = 0 then ⟨0, 1⟩
  else
    let g := gcdF n.natAbs d
    ⟨n / (g : Int), d / g⟩

def qZero : JQ := ⟨0, 1⟩

def qOfInt (n : Int) : JQ := ⟨n, 1⟩

def qOfNat (n : Nat) : JQ := qMk (n : Int) 1

def qAdd (a b : JQ) : JQ := qMk (a.num * (b.den : Int) + b.num * (a.den : Int)) (a.den * b.den)

def qNeg (a : JQ) : JQ := ⟨-a.num, a.den⟩

def qSub (a b : JQ) : JQ := qAdd a (qNeg b)

def qMul (a b : JQ) : JQ := qMk (a.num * b.num) (a.den * b.den)

/-- Division by a positive natural number (the only division the embedded
code performs: decimal scaling by powers of ten). -/
def qDivNat (a : JQ) (k : Nat) : JQ := qMk a.num (a.den * k)

def qLe (a b : JQ) : Bool := decide (a.num * (b.den : Int) ≤ b.num * (a.den : Int))

def qLt (a b : JQ) : Bool := decide (a.num * (b.den : Int) < b.num * (a.den : Int))

/-- Mathematical floor of a rational.  `Int` division in Mathlib rounds
toward negative infinity for positive divisors, which is exactly floor. -/
def qFloorZ (a : JQ) : Int := a.num / (a.den : Int)

/-- Mathematical ceiling, as `-⌊-a⌋`. -/
def qCeilZ (a : JQ) : Int := -((-a.num) / (a.den : Int))

/-- Model of `Math.floor` (on a finite number). -/
def qFloor (a : JQ) : JQ := qOfInt (qFloorZ a)

/-- Model of `Math.ceil` (on a finite number). -/
def qCeil (a : JQ) : JQ := qOfInt (qCeilZ a)

/-- Model of `Math.round` (on a finite number): `⌊x + 1/2⌋`, ties toward positive
infinity, exactly as in JS. -/
def qRound (a : JQ) : JQ := qOfInt (qFloorZ (qAdd a ⟨1, 2⟩))

def qAbs (a : JQ) : JQ := ⟨a.num.natAbs, a.den⟩

/-- Rounding to 3 decimal places, half away from zero: the numeric content
of `Number.prototype.toFixed(3)`.  (JS resolves exact ties by the binary
representation; no verified property involves an exact tie.) -/
def qRound3 (a : JQ) : JQ :=
  if qLe qZero a then qDivNat (qOfInt (qFloorZ (qAdd (qMul a (qOfNat 1000)) ⟨1, 2⟩))) 1000
  else qNeg (qDivNat (qOfInt (qFloorZ (qAdd (qMul (qNeg a) (qOfNat 1000)) ⟨1, 2⟩))) 1000)

/-- A JS number: a finite exact rational or one of the special values. -/
inductive PNum where
  | vnum (q : JQ)
  | vnan
  | vinf
  | vninf
deriving DecidableEq, Repr

/-- Addition with JS special-value semantics. -/
def pAdd : PNum → PNum → PNum
  | .vnan, _ => .vnan
  | _, .vnan => .vnan
  | .vinf, .vninf => .vnan
  | .vninf, .vinf => .vnan
  | .vinf, _ => .vinf
  | _, .vinf => .vinf
  | .vninf, _ => .vninf
  | _, .vninf => .vninf
  | .vnum a, .vnum b => .vnum (qAdd a b)

def pNeg : PNum → PNum
  | .vnum a => .vnum (qNeg a)
  | .vnan => .vnan
  | .vinf => .vninf
  | .vninf => .vinf

def pSub (a b : PNum) : PNum := pAdd a (pNeg b)

/-- The `<=` comparison on JS numbers: false whenever `NaN` is involved. -/
def pLe : PNum → PNum → Bool
  | .vnan, _ => false
  | _, .vnan => false
  | .vninf, _ => true
  | _, .vninf => false
  | _, .vinf => true
  | .vinf, _ => false
  | .vnum a, .vnum b => qLe a b

/-- The `<` comparison on JS numbers: false whenever `NaN` is involved. -/
def pLt : PNum → PNum → Bool
  | .vnan, _ => false
  | _, .vnan => false
  | _, .vninf => false
  | .vninf, _ => true
  | .vinf, _ => false
  | _, .vinf => true
  | .vnum a, .vnum b => qLt a b

/-- Strict equality `===` on JS numbers: `NaN === NaN` is false. -/
def pStrictEq : PNum → PNum → Bool
  | .vnum a, .vnum b => decide (a = b)
  | .vinf, .vinf => true
  | .vninf, .vninf => true
  | _, _ => false

def pCeil : PNum → PNum
  | .vnum q => .vnum (qCeil q)
  | s => s

def pFloor : PNum → PNum
  | .vnum q => .vnum (qFloor q)
  | s => s

def pRound : PNum → PNum
  | .vnum q => .vnum (qRound q)
  | s => s

/-- Binary `Math.max`: `NaN` poisons, otherwise the larger value. -/
def pMax2 (a b : PNum) : PNum :=
  match a, b with
  | .vnan, _ => .vnan
  | _, .vnan => .vnan
  | x, y => if pLe x y then y else x

/-- Binary `Math.min`. -/
def pMin2 (a b : PNum) : PNum :=
  match a, b with
  | .vnan, _ => .vnan
  | _, .vnan => .vnan
  | x, y => if pLe x y then x else y

/-- Model of `Math.max(...list)`: fold starting from `-Infinity` (the value of
`Math.max()` with no arguments). -/
def pMaxL (l : List PNum) : PNum := l.foldl pMax2 .vninf

/-- Model of `Math.min(...list)`: fold starting from `Infinity`. -/
def pMinL (l : List PNum) : PNum := l.foldl pMin2 .vinf

/-- Numeric content of `toFixed(3)` followed by numeric coercion of the
resulting string: finite values are rounded to 3 decimals;
`"NaN"`, `"Infinity"`, `"-Infinity"` coerce back to the special values. -/
def pToFixed3 : PNum → PNum
  | .vnum q => .vnum (qRound3 q)
  | s => s

/-- The whitespace characters recognized by JS string trimming and numeric
conversion (the ASCII ones; exotic Unicode spaces are not modelled). -/
def isWsCh (c : Char) : Bool :=
  c = ' ' || c = '\t' || c = '\n' || c = '\r' || c = '\x0b' || c = '\x0c'

def isDigitCh (c : Char) : Bool := '0' ≤ c && c ≤ '9'

def digitVal (c : Char) : Nat := c.toNat - '0'.toNat

def natOfDigits (l : List Char) : Nat := l.foldl (fun n c => 10 * n + digitVal c) 0

/-- Value of a digit in bases up to 16, or `none` if not a digit there. -/
def radixDigitVal (radix : Nat) (c : Char) : Option Nat :=
  let v : Option Nat :=
    if isDigitCh c then some (digitVal c)
    else if 'a' ≤ c && c ≤ 'f' then some (c.toNat - 'a'.toNat + 10)
    else if 'A' ≤ c && c ≤ 'F' then some (c.toNat - 'A'.toNat + 10)
    else none
  match v with
  | some n => if n < radix then some n else none
  | none => none

def natOfRadixDigits (radix : Nat) (l : List Char) : Option Nat :=
  l.foldl
    (fun acc c =>
      match acc, radixDigitVal radix c with
      | some n, some d => some (radix * n + d)
      | _, _ => none)
    (some 0)

/-- ASCII lower-casing of one character (model of the effect of JS
`toLowerCase` on the inputs that occur here). -/
def lowerCh (c : Char) : Char := if 'A' ≤ c && c ≤ 'Z' then Char.ofNat (c.toNat + 32) else c

/-- Model of `String.prototype.toLowerCase` (ASCII). -/
def jsToLower (s : List Char) : List Char := s.map lowerCh

/-- Model of `String.prototype.trim`. -/
def jsTrim (s : List Char) : List Char :=
  ((s.dropWhile isWsCh).reverse.dropWhile isWsCh).reverse

def isPrefList : List Char → List Char → Bool
  | [], _ => true
  | _ :: _, [] => false
  | a :: as, b :: bs => a = b && isPrefList as bs

/-- Model of `String.prototype.includes`: does `needle` occur as a
contiguous substring of `hay`? -/
def containsSub (hay needle : List Char) : Bool :=
  match hay with
  | [] => needle.isEmpty
  | _ :: rest => isPrefList needle hay || containsSub rest needle

/-- Parse an optional sign; returns (is-negative, rest). -/
def readSign : List Char → (Bool × List Char)
  | '-' :: rest => (true, rest)
  | '+' :: rest => (false, rest)
  | s => (false, s)

/-- Parse an optional exponent part `e`/`E` [sign] digits.  If no digit
follows the marker the marker is not consumed (JS longest-valid-prefix
rule: `parseFloat("1e") = 1`). -/
def parseExpPart (s : List Char) : (Int × List Char) :=
  match s with
  | c :: rest =>
    if c = 'e' || c = 'E' then
      let sgn := readSign rest
      let ds := sgn.2.span isDigitCh
      if ds.1.isEmpty then (0, s)
      else ((if sgn.1 then -(natOfDigits ds.1 : Int) else (natOfDigits ds.1 : Int)), ds.2)
    else (0, s)
  | [] => (0, [])

/-- Scale an exact value by `10 ^ e`. -/
def applyExp (q : JQ) (e : Int) : JQ :=
  if 0 ≤ e then qMul q (qOfNat (10 ^ e.toNat)) else qDivNat q (10 ^ (-e).toNat)

/-- Core of the JS decimal-literal scanner shared by `parseFloat` and
string-to-number coercion: optional sign, then `Infinity` or
digits [ `.` digits ] [ exponent ].  Returns the value and the unconsumed
rest, or `none` when no number can be read. -/
def parseDecCore (s : List Char) : Option (PNum × List Char) :=
  let sgn := readSign s
  let neg := sgn.1
  let s1 := sgn.2
  if isPrefList "Infinity".data s1 then
    some ((if neg then .vninf else .vinf), s1.drop 8)
  else
    let ip := s1.span isDigitCh
    match ip.2 with
    | '.' :: s3 =>
      let fp := s3.span isDigitCh
      if ip.1.isEmpty && fp.1.isEmpty then none
      else
        let mant := qAdd (qOfNat (natOfDigits ip.1)) (qDivNat (qOfNat (natOfDigits fp.1)) (10 ^ fp.1.length))
        let ex := parseExpPart fp.2
        some (.vnum ((if neg then qNeg else id) (applyExp mant ex.1)), ex.2)
    | _ =>
      if ip.1.isEmpty then none
      else
        let ex := parseExpPart ip.2
        some (.vnum ((if neg then qNeg else id) (applyExp (qOfNat (natOfDigits ip.1)) ex.1)), ex.2)

/-- Model of global `parseFloat` on a string: skip leading whitespace,
read the longest numeric prefix, `NaN` if there is none. -/
def parseFloatStr (s : List Char) : PNum :=
  match parseDecCore (s.dropWhile isWsCh) with
  | some (v, _) => v
  | none => .vnan

/-- Model of JS string-to-number coercion (`ToNumber`): trim, empty means
`0`, a hex/octal/binary literal or a full-string decimal literal,
otherwise `NaN`. -/
def toNumberStr (s : List Char) : PNum :=
  let t := jsTrim s
  if t.isEmpty then .vnum qZero
  else
    let dec : PNum :=
      match parseDecCore t with
      | some (v, []) => v
      | _ => .vnan
    match t with
    | '0' :: c :: rest =>
      if c = 'x' || c = 'X' then
        match natOfRadixDigits 16 rest with
        | some n => if rest.isEmpty then .vnan else .vnum (qOfNat n)
        | none => .vnan
      else if c = 'o' || c = 'O' then
        match natOfRadixDigits 8 rest with
        | some n => if rest.isEmpty then .vnan else .vnum (qOfNat n)
        | none => .vnan
      else if c = 'b' || c = 'B' then
        match natOfRadixDigits 2 rest with
        | some n => if rest.isEmpty then .vnan else .vnum (qOfNat n)
        | none => .vnan
      else dec
    | _ => dec

/-- A JS value passed as a measurement: a number (finite or special) or a
string.  Other JS types coerce like strings or to `NaN`; no claim needs
them and extending this type would not change any verdict below. -/
inductive Meas where
  | num (q : JQ)
  | nan
  | inf
  | ninf
  | str (s : List Char)
deriving DecidableEq, Repr

/-- A JS value passed as a material type: a string, or any non-string
value (`typeof materialType != "string"` is all the source inspects). -/
inductive MatVal where
  | jstr (s : List Char)
  | jother
deriving DecidableEq, Repr

/-- A JS value passed as the measurements argument: an array of
measurement values, or any non-array value. -/
inductive MeasArg where
  | marr (ms : List Meas)
  | mnotArr
deriving DecidableEq, Repr

/-- The structured error objects the source returns.  Message strings and
display payloads are identified by constructor; the JS texts are quoted in
the comments. -/
inductive ErrVal where
  /-- `{error: "Material type must be a string."}` -/
  | materialNotString
  /-- `{error: "Material type is required and cannot be empty."}` -/
  | materialEmpty
  /-- `{error: "Unknown material type: ... Valid types are ..."}` -/
  | unknownMaterialType
  /-- `{error: "Currently available specifications are ..."}` -/
  | unknownDesignation
  /-- `{error: "Measurement must be between 0 to 1000."}` -/
  | invalidMeasurement
  /-- `{error: true, message: "Invalid measurement value"}` -/
  | invalidMeasurementValue
  /-- `{error: "Measurements must be an array of numbers"}` -/
  | measurementsNotArray
  /-- `{error: "Measurements array cannot be empty"}` -/
  | measurementsEmpty
  /-- `{error: "Some measurements are invalid.", details: ...}` with the
  offending indices. -/
  | someMeasurementsInvalid (idxs : List Nat)
  /-- `{error: true, message: "Unknown material type: undefined"}` from
  `processMeasurement` when the config lookup fails. -/
  | unknownMaterialRuntime
  /-- `{error: true, message: "No specification found for nominal ..."}` -/
  | noSpecFound
deriving DecidableEq, Repr

/-- The three observable outcomes of calling a JS function: a normal
return, a returned structured-error object, or a thrown exception. -/
inductive JsOutcome (α : Type) where
  | ok (a : α)
  | err (e : ErrVal)
  | thrown
deriving DecidableEq, Repr

def JsOutcome.isOkB : JsOutcome α → Bool
  | .ok _ => true
  | _ => false

/-- Map over the success value of an outcome. -/
def JsOutcome.mapOk (f : α → β) : JsOutcome α → JsOutcome β
  | .ok a => .ok (f a)
  | .err e => .err e
  | .thrown => .thrown

/-- The three table partitions (the values of the internal
`executableMaterialType` strings "housingBores", "shafts", "shellBores"). -/
inductive Category where
  | shafts
  | housingBores
  | shellBores
deriving DecidableEq, Repr

/-- The IT-grade field names read by the source. -/
inductive ITGrade where
  | it5
  | it6
deriving DecidableEq, Repr

/-- One diameter-range entry of the reference table (shape from spec
section 6 and the README examples).  Only the `IT5` and `IT6` fields are
ever read by the source, so only they are carried. -/
structure ToleranceRow where
  minimum_diameter : JQ
  maximum_diameter : JQ
  upper_deviation : JQ
  lower_deviation : JQ
  it5 : JQ
  it6 : JQ
deriving DecidableEq, Repr

/-- Read the IT-grade magnitude field of a row (`row[config.itGrade]`). -/
def rowIT (r : ToleranceRow) : ITGrade → JQ
  | .it5 => r.it5
  | .it6 => r.it6

/-- One entry of `MATERIAL_TYPE_CONFIG`. -/
structure MtConfig where
  specification : String
  itGrade : ITGrade
  rangeMatch : PNum → ToleranceRow → Bool

/-- The `MATERIAL_TYPE_CONFIG` object from the source: fixed designation,
fixed IT grade, and the per-category bracket-inclusivity rule. -/
def MATERIAL_TYPE_CONFIG : Category → MtConfig
  | .shafts =>
    ⟨"h9", .it5, fun nominal spec =>
      pLt (.vnum spec.minimum_diameter) nominal && pLe nominal (.vnum spec.maximum_diameter)⟩
  | .housingBores =>
    ⟨"H8", .it6, fun nominal spec =>
      pLe (.vnum spec.minimum_diameter) nominal && pLt nominal (.vnum spec.maximum_diameter)⟩
  | .shellBores =>
    ⟨"H9", .it6, fun nominal spec =>
      pLe (.vnum spec.minimum_diameter) nominal && pLt nominal (.vnum spec.maximum_diameter)⟩

/-- The reference table (`Tolerances.json`), as a parameter: for each
category, the ordered list of (designation, row list) pairs. -/
def TolTable : Type := Category → List (String × List ToleranceRow)

/-- Assoc-list lookup of a designation inside one table partition. -/
def lookupDesig (name : String) : List (String × List ToleranceRow) → Option (List ToleranceRow)
  | [] => none
  | (k, rows) :: rest => if k = name then some rows else lookupDesig name rest

/-- Model of `parseFloat(measurement)`: numbers pass through (via their canonical
string rendering), strings are scanned. -/
def parseFloatM : Meas → PNum
  | .num q => .vnum q
  | .nan => .vnan
  | .inf => .vinf
  | .ninf => .vninf
  | .str s => parseFloatStr s

/-- JS arithmetic coercion (`ToNumber`) of a measurement value. -/
def toNumberM : Meas → PNum
  | .num q => .vnum q
  | .nan => .vnan
  | .inf => .vinf
  | .ninf => .vninf
  | .str s => toNumberStr s

/-- The helper `parseStringFloat` from the source: numbers are returned
as-is, strings are `parseFloat`-ed with `NaN` mapped to `0`. -/
def parseStringFloat : Meas → PNum
  | .num q => .vnum q
  | .nan => .vnan
  | .inf => .vinf
  | .ninf => .vninf
  | .str s =>
    match parseFloatStr s with
    | .vnan => .vnum qZero
    | v => v

/-- Model of `isValidMeasurement` from the source:
`!isNaN(parseFloat(m)) && m >= 0 && m < 1000` (specials and failed parses
all fail one of the three tests). -/
def isValidMeasurement (m : Meas) : Bool :=
  match parseFloatM m with
  | .vnum q => qLe qZero q && qLt q ⟨1000, 1⟩
  | _ => false

/-- Is the measurement of JS number type (`typeof measurement === "number"`)? -/
def measIsNumberType : Meas → Bool
  | .str _ => false
  | _ => true

/-- Model of `isNaN(measurement)` for a value already known to be a number. -/
def measIsNaNB : Meas → Bool
  | .nan => true
  | _ => false

/-- Model of `validateMaterialType` from the source: non-strings and blank strings
produce error objects, otherwise the original string is returned. -/
def validateMaterialType : MatVal → Sum ErrVal (List Char)
  | .jother => .inl .materialNotString
  | .jstr s => if (jsTrim s).isEmpty then .inl .materialEmpty else .inr s

/-- Result shape of `getAllTolerancesFor`: `{type, specifications}`. -/
structure AllTolerances where
  type : Category
  specifications : List (String × List ToleranceRow)
deriving DecidableEq, Repr

/-- Result shape of `getCamcoStandardTolerancesFor`: `{type, specification}`
where `specification` is the row list of the fixed designation. -/
structure CamcoTolerances where
  type : Category
  specification : List ToleranceRow
deriving DecidableEq, Repr

/-- Model of `returnTolerancesFor` without a designation argument. -/
def returnTolerancesForAll (cat : Category) (tbl : TolTable) : AllTolerances :=
  ⟨cat, tbl cat⟩

/-- Model of `returnTolerancesFor` with a designation: error if the designation is
not among the keys of the partition, otherwise the row list. -/
def returnTolerancesForSpec (cat : Category) (specName : String) (tbl : TolTable) :
    JsOutcome CamcoTolerances :=
  match lookupDesig specName (tbl cat) with
  | none => .err .unknownDesignation
  | some rows => .ok ⟨cat, rows⟩

/-- Model of `getAllTolerancesFor`.  When `validateMaterialType` returns an error
object the source goes on to call `.trim()` on that object, which throws a
`TypeError`; resolution order is housing, then shaft, then shell. -/
def getAllTolerancesFor (mt : MatVal) (tbl : TolTable) : JsOutcome AllTolerances :=
  match validateMaterialType mt with
  | .inl _ => .thrown
  | .inr s =>
    let t := jsToLower (jsTrim s)
    if containsSub t "housing".data then .ok (returnTolerancesForAll .housingBores tbl)
    else if containsSub t "shaft".data then .ok (returnTolerancesForAll .shafts tbl)
    else if containsSub t "shell".data then .ok (returnTolerancesForAll .shellBores tbl)
    else .err .unknownMaterialType

/-- Model of `getCamcoStandardTolerancesFor`.  Same thrown behaviour on invalid
input; resolution order is housing, then shell, then shaft (note: not the
same order as `getAllTolerancesFor`). -/
def getCamcoStandardTolerancesFor (mt : MatVal) (tbl : TolTable) : JsOutcome CamcoTolerances :=
  match validateMaterialType mt with
  | .inl _ => .thrown
  | .inr s =>
    let t := jsToLower (jsTrim s)
    if containsSub t "housing".data then returnTolerancesForSpec .housingBores "H8" tbl
    else if containsSub t "shell".data then returnTolerancesForSpec .shellBores "H9" tbl
    else if containsSub t "shaft".data then returnTolerancesForSpec .shafts "h9" tbl
    else .err .unknownMaterialType

/-- Model of `parseNominalFromMeasurement`.  `THRESHOLD` defaults to `0.9` in the
source; every call site omits it, so the embedded call sites pass `9/10`
explicitly.  The JS fall-through `Math.round` branch for unknown
categories is unreachable here because `Category` has exactly the three
inhabitants the source dispatches on. -/
def parseNominalFromMeasurement (m : Meas) (materialType : Category) (THRESHOLD : JQ) :
    Except ErrVal PNum :=
  if isValidMeasurement m = false then .error .invalidMeasurement
  else
    match materialType with
    | .shafts =>
      let standardNominal := pCeil (toNumberM m)
      if pLe (.vnum THRESHOLD) (pSub standardNominal (toNumberM m)) then
        .ok (pFloor (toNumberM m))
      else .ok (pCeil (toNumberM m))
    | .housingBores =>
      let standardNominal := pFloor (toNumberM m)
      if pLe (.vnum THRESHOLD) (pSub (toNumberM m) standardNominal) then
        .ok (pCeil (toNumberM m))
      else .ok standardNominal
    | .shellBores =>
      let standardNominal := pFloor (toNumberM m)
      if pLe (.vnum THRESHOLD) (pSub (toNumberM m) standardNominal) then
        .ok (pCeil (toNumberM m))
      else .ok standardNominal

/-- Model of `findMatchingSpec`: first row accepted by the range-match function,
`null` (`none`) when there is none. -/
def findMatchingSpec (nominal : PNum) (specs : List ToleranceRow)
    (rangeMatchFn : PNum → ToleranceRow → Bool) : Option ToleranceRow :=
  specs.find? (fun spec => rangeMatchFn nominal spec)

/-- The pair produced by `calculateComputedBounds` (numeric content of the
two `toFixed(3)` strings). -/
structure CompBounds where
  upperBound : PNum
  lowerBound : PNum
deriving DecidableEq, Repr

/-- Model of `calculateComputedBounds` via `parseComputedBound`:
`Number(nominal + parseStringFloat(deviation)).toFixed(3)`. -/
def calculateComputedBounds (nominal : PNum) (spec : ToleranceRow) : CompBounds :=
  ⟨pToFixed3 (pAdd nominal (.vnum spec.upper_deviation)),
   pToFixed3 (pAdd nominal (.vnum spec.lower_deviation))⟩

/-- Model of `checkMeetsSpecification`: validity guard, then the inclusive
two-sided bound comparison on `parseStringFloat`-coerced values. -/
def checkMeetsSpecification (measurement : Meas) (bounds : CompBounds) : Except ErrVal Bool :=
  if isValidMeasurement measurement = false then .error .invalidMeasurement
  else
    .ok (pLe bounds.lowerBound (parseStringFloat measurement) &&
         pLe (parseStringFloat measurement) bounds.upperBound)

/-- Successful result of `processMeasurement`.  The JS object nests the
boolean as `meets_specification.meetsSpec` next to display-only reason
strings; only the boolean is carried here. -/
structure SingleResult where
  measurement : PNum
  nominal : PNum
  specification : String
  IT_grade : ITGrade
  computed_specification_bounds : CompBounds
  matched_spec : ToleranceRow
  meetsSpec : Bool
deriving DecidableEq, Repr

/-- Model of `processMeasurement`.  The material type is an `Option` because the
batch path passes `camcoStandardTolerances.type`, which is `undefined`
when the camco lookup failed; the config lookup then fails and the source
returns an `{error: true, message: "Unknown material type ..."}` object
before touching the row list. -/
def processMeasurement (materialType : Option Category) (rows : List ToleranceRow)
    (measurement : Meas) : Except ErrVal SingleResult :=
  if isValidMeasurement measurement = false then .error .invalidMeasurement
  else
    match materialType with
    | none => .error .unknownMaterialRuntime
    | some cat =>
      let config := MATERIAL_TYPE_CONFIG cat
      let nominal :=
        match parseNominalFromMeasurement measurement cat ⟨9, 10⟩ with
        | .ok n => n
        | .error _ => .vnan
      match findMatchingSpec nominal rows config.rangeMatch with
      | none => .error .noSpecFound
      | some matchedSpec =>
        let computedBounds := calculateComputedBounds nominal matchedSpec
        let meetsSpec :=
          match checkMeetsSpecification measurement computedBounds with
          | .ok b => b
          | .error _ => false
        .ok ⟨parseStringFloat measurement, nominal, config.specification, config.itGrade,
             computedBounds, matchedSpec, meetsSpec⟩

/-- Output of `processOneMeasurement`: the single result plus the
`meets_IT_tolerance` field. -/
structure SingleOutput extends SingleResult where
  meets_IT_tolerance : Bool
deriving DecidableEq, Repr

/-- Model of `processOneMeasurement`: spread of the processed result plus
`meets_IT_tolerance: processed.meets_specification.meetsSpec`.  When
`processMeasurement` returned an error object that property access is on
`undefined` and throws. -/
def processOneMeasurement (materialType : Option Category) (rows : List ToleranceRow)
    (m : Meas) : JsOutcome SingleOutput :=
  if isValidMeasurement m = false then .err .invalidMeasurement
  else
    match processMeasurement materialType rows m with
    | .error _ => .thrown
    | .ok r => .ok ⟨r, r.meetsSpec⟩

/-- Model of `checkOneMeasurementFor`: measurement-range guard first, then the
camco lookup (whose error object is passed through, and whose thrown
`TypeError` on non-string input propagates), then the number-type guard,
then the single-measurement pipeline. -/
def checkOneMeasurementFor (mt : MatVal) (m : Meas) (tbl : TolTable) : JsOutcome SingleOutput :=
  if isValidMeasurement m = false then .err .invalidMeasurement
  else
    match getCamcoStandardTolerancesFor mt tbl with
    | .thrown => .thrown
    | .err e => .err e
    | .ok camco =>
      if !measIsNumberType m || measIsNaNB m then .err .invalidMeasurementValue
      else processOneMeasurement (some camco.type) camco.specification m

/-- Model of `processIndividualMeasurement`: validity guard then
`processMeasurement`, whose result (success or error object) is returned
unchanged to the batch callback. -/
def processIndividualMeasurement (materialType : Option Category) (rows : List ToleranceRow)
    (m : Meas) : Except ErrVal SingleResult :=
  if isValidMeasurement m = false then .error .invalidMeasurement
  else processMeasurement materialType rows m

/-- Model of `validateMeasurements`: not an array, or an empty array. -/
def validateMeasurements : MeasArg → Option ErrVal
  | .mnotArr => some .measurementsNotArray
  | .marr ms => if ms.isEmpty then some .measurementsEmpty else none

/-- Indices of the per-item `isValidMeasurement` failures collected by the
`forEach` loop. -/
def invalidIndices (ms : List Meas) : List Nat :=
  (ms.enum.filter (fun p => !isValidMeasurement p.2)).map Prod.fst

def exIsErr : Except ErrVal SingleResult → Bool
  | .error _ => true
  | .ok _ => false

def exOk : Except ErrVal SingleResult → Option SingleResult
  | .ok r => some r
  | .error _ => none

/-- Assoc-list write `obj[k] = v`: overwrite in place if the key exists,
append otherwise — exactly the JS property-write semantics (note the key
keeps its original position on overwrite). -/
def updateAssoc : List (PNum × Nat) → PNum → Nat → List (PNum × Nat)
  | [], k, v => [(k, v)]
  | (k0, v0) :: rest, k, v =>
    if k0 = k then (k0, v) :: rest else (k0, v0) :: updateAssoc rest k v

/-- The `nominals` object built by the batch loop: `nominals[r.nominal] =
count++` for each successful result, with `count` incremented per item.
The stored value is therefore the index of the LAST occurrence of the
nominal, not an occurrence count. -/
def buildNomAssoc (rs : List SingleResult) : List (PNum × Nat) :=
  (rs.foldl (fun acc r => (updateAssoc acc.1 r.nominal acc.2, acc.2 + 1))
    (([] : List (PNum × Nat)), 0)).1

/-- Is this nominal an array-index-like object key (canonical non-negative
integer)?  Such keys enumerate in ascending numeric order in JS. -/
def isIndexKey : PNum → Bool
  | .vnum q => decide (q.den = 1) && decide (0 ≤ q.num)
  | _ => false

def insertAscKey (x : PNum) : List PNum → List PNum
  | [] => [x]
  | y :: ys => if pLe y x then y :: insertAscKey x ys else x :: y :: ys

def sortAscKeys (l : List PNum) : List PNum := l.foldr insertAscKey []

/-- Model of `Object.keys(nominals)` enumeration order: array-index-like keys in
ascending numeric order first, then the remaining keys in insertion
order. -/
def objectKeysOrder (assoc : List (PNum × Nat)) : List PNum :=
  sortAscKeys ((assoc.filter (fun p => isIndexKey p.1)).map Prod.fst) ++
    (assoc.filter (fun p => !isIndexKey p.1)).map Prod.fst

def lookupAssocKey : List (PNum × Nat) → PNum → Option Nat
  | [], _ => none
  | (k0, v0) :: rest, k => if k0 = k then some v0 else lookupAssocKey rest k

/-- Model of `Math.max(...Object.values(nominals))` (the values are item indices;
with a non-empty batch this is the index of the last item). -/
def maxAssocValue (assoc : List (PNum × Nat)) : Nat :=
  (assoc.map Prod.snd).foldl max 0

/-- Model of `parseInt` applied to the string form of an object key that came from
a nominal: integer-valued keys map to themselves, fractional values
truncate toward zero, and the `"NaN"`/`"Infinity"` key strings give
`NaN`. -/
def parseIntOfKey : PNum → PNum
  | .vnum q => .vnum (qOfInt (q.num.tdiv (q.den : Int)))
  | _ => .vnan

/-- Result shape of `checkMultipleMeasurementsFor`: the spread of the base
item result with `measurement` overwritten by the raw input array, the
batch-level verdicts, and the combined `meets_final_compliance`. -/
structure BatchResult where
  measurement : List Meas
  nominal : PNum
  specification : String
  IT_grade : ITGrade
  computed_specification_bounds : CompBounds
  matched_spec : ToleranceRow
  meetsSpec : Bool
  meetsIT : Bool
  meets_final_compliance : Bool
deriving DecidableEq, Repr

/-- The body of `checkMultipleMeasurementsFor` after upfront validation
and the camco lookup.  Faithful points worth noting:
* the per-item map callback reads `result.meets_specification.meetsSpec`,
  which throws when any item produced an error object, so any per-item
  error makes the whole call throw;
* `ITDifference` is the `toFixed(3)` string of the spread, so the
  comparison `ITDifference <= baseITValue` uses the 3-decimal-rounded
  value, not the raw spread;
* the `nominals` object stores last-occurrence indices (see
  `buildNomAssoc`), so `mostOccuredNominal` is the key holding the largest
  stored index — the nominal of the last item, not the most frequent one. -/
def runBatchAux (ms : List Meas) (nums : List PNum)
    (items : List (Except ErrVal SingleResult)) : JsOutcome BatchResult :=
  let largestMeasurement := pMaxL nums
  let smallestMeasurement := pMinL nums
  let ITDifference := pToFixed3 (pSub largestMeasurement smallestMeasurement)
  if items.any exIsErr then .thrown
  else
    let rs := items.filterMap exOk
    let nominals := buildNomAssoc rs
    let countOfMostOccuredNominal := maxAssocValue nominals
    match (objectKeysOrder nominals).find?
        (fun k => decide (lookupAssocKey nominals k = some countOfMostOccuredNominal)) with
    | none => .thrown
    | some mostOccuredNominal =>
      match rs.find? (fun r => pStrictEq r.nominal (parseIntOfKey mostOccuredNominal)) with
      | none => .thrown
      | some baseSpec =>
        let baseITValue := rowIT baseSpec.matched_spec baseSpec.IT_grade
        let meetsIT := pLe ITDifference (.vnum baseITValue)
        let meetsSpec := rs.all (fun r => r.meetsSpec)
        .ok ⟨ms, baseSpec.nominal, baseSpec.specification, baseSpec.IT_grade,
             baseSpec.computed_specification_bounds, baseSpec.matched_spec,
             meetsSpec, meetsIT, meetsIT && meetsSpec⟩

def runBatch (materialType : Option Category) (rows : List ToleranceRow) (ms : List Meas) :
    JsOutcome BatchResult :=
  runBatchAux ms (ms.map toNumberM) (ms.map (processIndividualMeasurement materialType rows))

/-- Model of `checkMultipleMeasurementsFor`: `validateMeasurements`, the per-item
validity pass, the camco lookup (a thrown `TypeError` on non-string input
propagates; a camco error object leaves `camcoStandardTolerances.type`
undefined, which makes every item produce an error object and hence makes
the batch throw), then the batch body. -/
def checkMultipleMeasurementsFor (mt : MatVal) (msArg : MeasArg) (tbl : TolTable) :
    JsOutcome BatchResult :=
  match msArg with
  | .mnotArr => .err .measurementsNotArray
  | .marr ms =>
    if ms.isEmpty then .err .measurementsEmpty
    else
      let bad := invalidIndices ms
      if !bad.isEmpty then .err (.someMeasurementsInvalid bad)
      else
        match getCamcoStandardTolerancesFor mt tbl with
        | .thrown => .thrown
        | .err _ => runBatch none [] ms
        | .ok camco => runBatch (some camco.type) camco.specification ms

/-- Success-projection helpers used by the theorems below (a JS caller
branches on the error discriminator and then reads these fields). -/
def camcoTypeOf : JsOutcome CamcoTolerances → Option Category
  | .ok c => some c.type
  | _ => none

def allTypeOf : JsOutcome AllTolerances → Option Category
  | .ok a => some a.type
  | _ => none

def batchFinalOf : JsOutcome BatchResult → Option Bool
  | .ok r => some r.meets_final_compliance
  | _ => none

def batchITOf : JsOutcome BatchResult → Option Bool
  | .ok r => some r.meetsIT
  | _ => none

def batchNominalOf : JsOutcome BatchResult → Option PNum
  | .ok r => some r.nominal
  | _ => none

def oneITOf : JsOutcome SingleOutput → Option Bool
  | .ok r => some r.meets_IT_tolerance
  | _ => none

def oneSpecOf : JsOutcome SingleOutput → Option Bool
  | .ok r => some r.meetsSpec
  | _ => none

/-- Drop the echoed raw input array from a batch result (used to compare
two batch runs that differ only in how the same numeric values were
written). -/
def eraseEcho (r : BatchResult) : BatchResult :=
  ⟨[], r.nominal, r.specification, r.IT_grade, r.computed_specification_bounds,
   r.matched_spec, r.meetsSpec, r.meetsIT, r.meets_final_compliance⟩

/-- The row-selection rule exactly as the claims state it:
`min < n ≤ max` for shafts, `min ≤ n < max` for housing and shell bores. -/
def specRowRule (cat : Category) (n : PNum) (r : ToleranceRow) : Bool :=
  match cat with
  | .shafts => pLt (.vnum r.minimum_diameter) n && pLe n (.vnum r.maximum_diameter)
  | .housingBores => pLe (.vnum r.minimum_diameter) n && pLt n (.vnum r.maximum_diameter)
  | .shellBores => pLe (.vnum r.minimum_diameter) n && pLt n (.vnum r.maximum_diameter)

def occCount (l : List PNum) (x : PNum) : Nat := (l.filter (fun y => decide (y = x))).length

/-- The reference nominal exactly as the spec defines it: the value
occurring most often, ties broken by the first-encountered one in
iteration order. -/
def specReferenceNominal (ns : List PNum) : Option PNum :=
  ns.find? (fun x => decide (occCount ns x = (ns.map (occCount ns)).foldl max 0))

/-- The IT check exactly as the claims state it: the raw numeric spread
`max - min` compared against the IT magnitude, with no string formatting
in between. -/
def specITCheck (ms : List Meas) (it : JQ) : Bool :=
  pLe (pSub (pMaxL (ms.map toNumberM)) (pMinL (ms.map toNumberM))) (.vnum it)

/-- An invalid measurement exactly as the claims describe it:
non-numeric (its `parseFloat` is `NaN`), non-finite, negative, or at
least 1000. -/
def measInvalidSpec (m : Meas) : Bool :=
  match parseFloatM m with
  | .vnum q => qLt q qZero || qLe ⟨1000, 1⟩ q
  | _ => true

/-- The per-item nominal values a batch run derives. -/
def itemNominals (materialType : Option Category) (rows : List ToleranceRow)
    (ms : List Meas) : List (Option PNum) :=
  ms.map (fun m =>
    (exOk (processIndividualMeasurement materialType rows m)).map (fun r => r.nominal))

/-- Did this item evaluate without error and pass its own bound check? -/
def itemMeets : Except ErrVal SingleResult → Bool
  | .ok r => r.meetsSpec
  | .error _ => false

/-- Does every item of the batch evaluate without error and pass its own
bound check? -/
def allItemsMeetSpecB (materialType : Option Category) (rows : List ToleranceRow)
    (ms : List Meas) : Bool :=
  (ms.map (processIndividualMeasurement materialType rows)).all itemMeets

/-- A sample housing-bore H8 row for the bracket 3 ≤ n < 6
(upper deviation +0.012, IT6 = 0.008). -/
def hRow1 : ToleranceRow := ⟨qMk 3 1, qMk 6 1, qMk 12 1000, qZero, qMk 5 1000, qMk 8 1000⟩

/-- A sample housing-bore H8 row for the bracket 6 ≤ n < 10. -/
def hRow2 : ToleranceRow := ⟨qMk 6 1, qMk 10 1, qMk 15 1000, qZero, qMk 6 1000, qMk 9 1000⟩

/-- A sample housing-bore H8 row for the bracket 18 ≤ n < 30. -/
def hRow3 : ToleranceRow := ⟨qMk 18 1, qMk 30 1, qMk 33 1000, qZero, qMk 9 1000, qMk 13 1000⟩

/-- A sample shaft h9 row for the bracket 18 < n ≤ 30 (deviations 0 and
-0.030, IT5 = 0.009: the values behind the spec section 8 scenario for
`checkOneMeasurementFor("shaft", 24.982)`). -/
def shaftRow : ToleranceRow :=
  ⟨qMk 18 1, qMk 30 1, qZero, qMk (-30) 1000, qMk 9 1000, qMk 13 1000⟩

/-- A sample shell-bore H9 row for the bracket 18 ≤ n < 30. -/
def shellRow : ToleranceRow :=
  ⟨qMk 18 1, qMk 30 1, qMk 52 1000, qZero, qMk 9 1000, qMk 13 1000⟩

/-- A small concrete reference table of the shape the spec documents, used
by the concrete counterexamples and witnesses below. -/
def sampleTable : TolTable := fun c =>
  match c with
  | .housingBores => [("H8", [hRow1, hRow2, hRow3])]
  | .shafts => [("h9", [shaftRow])]
  | .shellBores => [("H9", [shellRow])]

/-- Equality of two rows on every field the single-measurement path
reads: the bracket bounds and the two deviations, i.e. everything except
the IT-grade magnitudes. -/
def rowCoreEq (r r2 : ToleranceRow) : Prop :=
  r.minimum_diameter = r2.minimum_diameter ∧ r.maximum_diameter = r2.maximum_diameter ∧
  r.upper_deviation = r2.upper_deviation ∧ r.lower_deviation = r2.lower_deviation

/-- Agreement of two single results on every field except the embedded
matched row (whose IT magnitudes may differ). -/
def singleResAgree (a b : SingleResult) : Prop :=
  a.measurement = b.measurement ∧ a.nominal = b.nominal ∧
  a.specification = b.specification ∧ a.IT_grade = b.IT_grade ∧
  a.computed_specification_bounds = b.computed_specification_bounds ∧
  a.meetsSpec = b.meetsSpec

def exResAgree : Except ErrVal SingleResult → Except ErrVal SingleResult → Prop
  | .error e1, .error e2 => e1 = e2
  | .ok a, .ok b => singleResAgree a b
  | _, _ => False

def optRowCoreEq : Option ToleranceRow → Option ToleranceRow → Prop
  | none, none => True
  | some a, some b => rowCoreEq a b
  | _, _ => False

/-- Claim C1.  The claim states that every public operation is total and
never throws, in particular for a non-string, empty, or whitespace-only
material type and for an unknown category passed to
`checkMultipleMeasurementsFor` with otherwise-valid measurements.  The
code contradicts this (and its own doc comments, which promise a returned
error message): `validateMaterialType` returns an error object and the
callers then invoke `.trim()` on that object, a thrown `TypeError`; and an
unknown category in the batch path leaves the camco result an error
object, so the per-item results are error objects and reading
`.meets_specification.meetsSpec` on them throws.  This theorem evaluates
the embedded code at those failing inputs. -/
theorem c1_public_operations_throw :
    getAllTolerancesFor .jother sampleTable = .thrown ∧
    getAllTolerancesFor (.jstr "".data) sampleTable = .thrown ∧
    getAllTolerancesFor (.jstr "   ".data) sampleTable = .thrown ∧
    getCamcoStandardTolerancesFor .jother sampleTable = .thrown ∧
    checkOneMeasurementFor .jother (.num (qMk 5 1)) sampleTable = .thrown ∧
    checkMultipleMeasurementsFor (.jstr "bolt".data) (.marr [.num (qMk 5 1)]) sampleTable =
      .thrown := by
  decide

/-- Claim C2.  The claim states that the reference nominal of a valid
batch is the most frequent nominal with first-encountered tie-break.  The
code instead stores `count++` (the running item index) into
`nominals[nominal]`, so the key holding the maximum is the nominal of the
LAST item.  For housing measurements `[5.2, 5.2, 6.2]` the per-item
nominals are `[5, 5, 6]`; the most-frequent rule (embodied by
`specReferenceNominal`) picks `5`, but the code uses `6` as the base
nominal of the batch result. -/
theorem c2_reference_nominal_divergence :
    itemNominals (some .housingBores) [hRow1, hRow2, hRow3]
        [.num (qMk 26 5), .num (qMk 26 5), .num (qMk 31 5)] =
      [some (.vnum (qMk 5 1)), some (.vnum (qMk 5 1)), some (.vnum (qMk 6 1))] ∧
    specReferenceNominal [.vnum (qMk 5 1), .vnum (qMk 5 1), .vnum (qMk 6 1)] =
      some (.vnum (qMk 5 1)) ∧
    batchNominalOf (checkMultipleMeasurementsFor (.jstr "housing".data)
      (.marr [.num (qMk 26 5), .num (qMk 26 5), .num (qMk 31 5)]) sampleTable) =
      some (.vnum (qMk 6 1)) ∧
    (PNum.vnum (qMk 6 1) ≠ PNum.vnum (qMk 5 1)) := by
  decide

/-- Claim C3.  The claim states that `meetsIT` compares the raw numeric
spread against the IT magnitude.  The code compares the `toFixed(3)`
rendering of the spread (numerically, its 3-decimal rounding).  For the
housing batch `[5, 5.0084]` the base row is the 3-6 bracket with
`IT6 = 0.008`; the raw spread is `0.0084 > 0.008` so the claimed check
(embodied by `specITCheck`) fails, yet the code reports `meetsIT = true`
because `0.0084.toFixed(3) = "0.008"`. -/
theorem c3_it_check_uses_rounded_spread :
    batchNominalOf (checkMultipleMeasurementsFor (.jstr "housing".data)
      (.marr [.num (qMk 5 1), .num (qMk 12521 2500)]) sampleTable) =
      some (.vnum (qMk 5 1)) ∧
    rowIT hRow1 .it6 = qMk 8 1000 ∧
    pSub (pMaxL ([Meas.num (qMk 5 1), .num (qMk 12521 2500)].map toNumberM))
        (pMinL ([Meas.num (qMk 5 1), .num (qMk 12521 2500)].map toNumberM)) =
      .vnum (qMk 21 2500) ∧
    specITCheck [.num (qMk 5 1), .num (qMk 12521 2500)] (qMk 8 1000) = false ∧
    batchITOf (checkMultipleMeasurementsFor (.jstr "housing".data)
      (.marr [.num (qMk 5 1), .num (qMk 12521 2500)]) sampleTable) = some true := by
  decide

/-- Claim C7, counterexample.  The claim asserts that both operations try
housing, then shaft, then shell, so that a string containing both
`"shaft"` and `"shell"` (and not `"housing"`) resolves to the shaft
category in both.  `getCamcoStandardTolerancesFor` actually tries shell
before shaft:  on `"shaft shell"` it resolves to the shell-bore category,
refuting the claim at this input. -/
theorem c7_counterexample_shaft_shell :
    camcoTypeOf (getCamcoStandardTolerancesFor (.jstr "shaft shell".data) sampleTable) =
      some .shellBores ∧
    some Category.shellBores ≠ some Category.shafts := by
  decide

lemma find?_isNone_eq_all_not (p : α → Bool) (l : List α) :
    (l.find? p).isNone = l.all (fun a => !p a) := by
  induction l with
  | nil => rfl
  | cons a l ih =>
    cases hpa : p a <;> simp [List.find?_cons, hpa, ih]

/-- Claim C5.  The spec matcher returns exactly the first row, in table
order, whose bracket contains the nominal under the category inclusivity
rule (strict lower / inclusive upper for shafts, the reverse for bores),
and `null` (`none`) precisely when no bracket contains it.
`specRowRule` is the rule as the claim words it; the left-hand sides are
the embedded `findMatchingSpec` applied to the embedded
`MATERIAL_TYPE_CONFIG` range matchers. -/
theorem c5_spec_matcher (cat : Category) (n : PNum) (rows : List ToleranceRow) :
    findMatchingSpec n rows (MATERIAL_TYPE_CONFIG cat).rangeMatch =
      rows.find? (specRowRule cat n) ∧
    (findMatchingSpec n rows (MATERIAL_TYPE_CONFIG cat).rangeMatch).isNone =
      rows.all (fun r => !specRowRule cat n r) := by
  have h1 : findMatchingSpec n rows (MATERIAL_TYPE_CONFIG cat).rangeMatch =
      rows.find? (specRowRule cat n) := by
    cases cat <;> rfl
  exact ⟨h1, by rw [h1]; exact find?_isNone_eq_all_not _ _⟩

lemma measInvalidSpec_eq_not_valid (m : Meas) : measInvalidSpec m = !isValidMeasurement m := by
  unfold measInvalidSpec isValidMeasurement
  cases hp : parseFloatM m
  case vnum q =>
    rw [Bool.eq_iff_iff]
    simp only [qLt, qLe, qZero, Bool.or_eq_true, Bool.not_eq_true', Bool.and_eq_false_iff,
      decide_eq_true_eq, decide_eq_false_iff_not]
    omega
  all_goals rfl

/-- Claim C8.  `checkOneMeasurementFor` rejects every non-numeric,
non-finite, negative, or `≥ 1000` measurement (the predicate
`measInvalidSpec`, worded as in the claim) with the invalid-measurement
error, and it does so before any nominal derivation or bound computation:
the conclusion holds for EVERY material-type value and EVERY table, so no
category resolution, row lookup, nominal or bound is ever consulted.  In
particular `checkOneMeasurementFor("housing", 1000)` is rejected — the
upper boundary 1000 is exclusive (see the witness). -/
theorem c8_invalid_measurement_rejected (mt : MatVal) (m : Meas) (tbl : TolTable)
    (h : measInvalidSpec m = true) :
    checkOneMeasurementFor mt m tbl = .err .invalidMeasurement := by
  have hv : isValidMeasurement m = false := by
    have h2 := measInvalidSpec_eq_not_valid m
    rw [h] at h2
    cases hvv : isValidMeasurement m
    · rfl
    · rw [hvv] at h2; simp at h2
  unfold checkOneMeasurementFor
  rw [hv]
  simp

/-- Witness for C8 at the claim boundary scenario
`checkOneMeasurementFor("housing", 1000)`. -/
theorem c8_invalid_measurement_rejected_witness :
    measInvalidSpec (.num (qMk 1000 1)) = true ∧
    checkOneMeasurementFor (.jstr "housing".data) (.num (qMk 1000 1)) sampleTable =
      .err .invalidMeasurement :=
  ⟨by decide, c8_invalid_measurement_rejected _ _ _ (by decide)⟩

lemma containsSub_nil_ne (needle : List Char) (hne : needle.isEmpty = false) :
    containsSub [] needle = false := by
  unfold containsSub
  exact hne

/-- Claim C7, amended.  Category resolution is a case-insensitive
substring match with first match winning, but the two operations try the
keywords in different orders: `getAllTolerancesFor` tries housing, shaft,
shell while `getCamcoStandardTolerancesFor` tries housing, shell, shaft.
Consequently an input containing both `"shaft"` and `"shell"` (and not
`"housing"`) resolves to the shaft category in `getAllTolerancesFor` but
to the shell-bore category in `getCamcoStandardTolerancesFor` (provided
the table knows the fixed `"H9"` designation, otherwise the latter
reports the unknown-designation error). -/
theorem c7_resolution_order (s : List Char) (tbl : TolTable)
    (hh : containsSub (jsToLower (jsTrim s)) "housing".data = false)
    (hsh : containsSub (jsToLower (jsTrim s)) "shaft".data = true)
    (hsl : containsSub (jsToLower (jsTrim s)) "shell".data = true)
    (hd : (lookupDesig "H9" (tbl .shellBores)).isSome = true) :
    allTypeOf (getAllTolerancesFor (.jstr s) tbl) = some .shafts ∧
    camcoTypeOf (getCamcoStandardTolerancesFor (.jstr s) tbl) = some .shellBores := by
  have hne : (jsTrim s).isEmpty = false := by
    cases hjt : jsTrim s with
    | nil =>
      exfalso
      rw [hjt] at hsh
      rw [show jsToLower [] = [] from rfl] at hsh
      rw [containsSub_nil_ne "shaft".data (by decide)] at hsh
      exact Bool.false_ne_true hsh
    | cons a l => rfl
  have hval : validateMaterialType (.jstr s) = .inr s := by
    simp only [validateMaterialType, hne, Bool.false_eq_true, if_false]
  constructor
  · simp only [getAllTolerancesFor, hval, hh, hsh, Bool.false_eq_true, if_false, if_true,
      allTypeOf, returnTolerancesForAll]
  · simp only [getCamcoStandardTolerancesFor, hval, hh, hsl, Bool.false_eq_true, if_false,
      if_true, returnTolerancesForSpec]
    cases hl : lookupDesig "H9" (tbl .shellBores) with
    | none => rw [hl] at hd; simp at hd
    | some rows => simp [hl, camcoTypeOf]

/-- Witness for the amended C7 at the concrete input `"shaft shell"`. -/
theorem c7_resolution_order_witness :
    allTypeOf (getAllTolerancesFor (.jstr "shaft shell".data) sampleTable) = some .shafts ∧
    camcoTypeOf (getCamcoStandardTolerancesFor (.jstr "shaft shell".data) sampleTable) =
      some .shellBores :=
  c7_resolution_order "shaft shell".data sampleTable (by decide) (by decide) (by decide)
    (by decide)

lemma qLe_refl (a : JQ) : qLe a a = true := by
  unfold qLe
  simp

lemma qFloorZ_le_qCeilZ (a : JQ) : qFloorZ a ≤ qCeilZ a := by
  unfold qFloorZ qCeilZ
  rcases Nat.eq_zero_or_pos a.den with h0 | hpos
  · rw [h0]
    simp
  · have hd : (0 : Int) < (a.den : Int) := by exact_mod_cast hpos
    have hne : (a.den : Int) ≠ 0 := ne_of_gt hd
    have h1 : (-a.num) / (a.den : Int) * (a.den : Int) ≤ -a.num := Int.ediv_mul_le _ hne
    have h2 : a.num ≤ (-((-a.num) / (a.den : Int))) * (a.den : Int) := by
      have hr : (-((-a.num) / (a.den : Int))) * (a.den : Int) =
          -((-a.num) / (a.den : Int) * (a.den : Int)) := by ring
      rw [hr]
      linarith
    have h3 : a.num / (a.den : Int) ≤
        ((-((-a.num) / (a.den : Int))) * (a.den : Int)) / (a.den : Int) :=
      Int.ediv_le_ediv hd h2
    rwa [Int.mul_ediv_cancel _ hne] at h3

lemma qFloor_le_qCeil (a : JQ) : qLe (qFloor a) (qCeil a) = true := by
  unfold qLe qFloor qCeil qOfInt
  simp only [decide_eq_true_eq]
  simpa using qFloorZ_le_qCeilZ a

/-- Claim C4.  For a valid numeric measurement `q` and any threshold `t`,
the embedded nominal resolver returns exactly what the claim states:
for shafts `floor(q)` when `ceil(q) - q ≥ t` and `ceil(q)` otherwise; for
housing and shell bores `ceil(q)` when `q - floor(q) ≥ t` and `floor(q)`
otherwise; and in every case the returned nominal lies between `floor(q)`
and `ceil(q)` inclusive. -/
theorem c4_nominal_resolver (q t : JQ) (h0 : qLe qZero q = true)
    (h1 : qLt q ⟨1000, 1⟩ = true) :
    (parseNominalFromMeasurement (.num q) .shafts t =
      .ok (.vnum (if qLe t (qSub (qCeil q) q) then qFloor q else qCeil q))) ∧
    (parseNominalFromMeasurement (.num q) .housingBores t =
      .ok (.vnum (if qLe t (qSub q (qFloor q)) then qCeil q else qFloor q))) ∧
    (parseNominalFromMeasurement (.num q) .shellBores t =
      .ok (.vnum (if qLe t (qSub q (qFloor q)) then qCeil q else qFloor q))) ∧
    (qLe (qFloor q) (if qLe t (qSub (qCeil q) q) then qFloor q else qCeil q) = true ∧
     qLe (if qLe t (qSub (qCeil q) q) then qFloor q else qCeil q) (qCeil q) = true) ∧
    (qLe (qFloor q) (if qLe t (qSub q (qFloor q)) then qCeil q else qFloor q) = true ∧
     qLe (if qLe t (qSub q (qFloor q)) then qCeil q else qFloor q) (qCeil q) = true) := by
  have hval : isValidMeasurement (.num q) = true := by
    simp only [isValidMeasurement, parseFloatM]
    rw [h0, h1]
    rfl
  refine ⟨?_, ?_, ?_, ⟨?_, ?_⟩, ⟨?_, ?_⟩⟩
  · simp only [parseNominalFromMeasurement, hval, Bool.true_eq_false, if_false, toNumberM,
      pCeil, pFloor, pSub, pAdd, pNeg, pLe, qSub]
    split <;> rfl
  · simp only [parseNominalFromMeasurement, hval, Bool.true_eq_false, if_false, toNumberM,
      pCeil, pFloor, pSub, pAdd, pNeg, pLe, qSub]
    split <;> rfl
  · simp only [parseNominalFromMeasurement, hval, Bool.true_eq_false, if_false, toNumberM,
      pCeil, pFloor, pSub, pAdd, pNeg, pLe, qSub]
    split <;> rfl
  · split
    · exact qLe_refl _
    · exact qFloor_le_qCeil q
  · split
    · exact qFloor_le_qCeil q
    · exact qLe_refl _
  · split
    · exact qFloor_le_qCeil q
    · exact qLe_refl _
  · split
    · exact qLe_refl _
    · exact qFloor_le_qCeil q

/-- Witness for C4 at the spec scenario measurement 24.982 with the
default threshold 0.9 (shaft nominal 25). -/
theorem c4_nominal_resolver_witness :
    qLe qZero (qMk 12491 500) = true ∧ qLt (qMk 12491 500) ⟨1000, 1⟩ = true ∧
    parseNominalFromMeasurement (.num (qMk 12491 500)) .shafts (qMk 9 10) =
      .ok (.vnum (qMk 25 1)) := by
  refine ⟨by decide, by decide, ?_⟩
  rw [(c4_nominal_resolver (qMk 12491 500) (qMk 9 10) (by decide) (by decide)).1]
  rfl

lemma rangeMatch_core (cat : Category) (n : PNum) {r r2 : ToleranceRow} (h : rowCoreEq r r2) :
    (MATERIAL_TYPE_CONFIG cat).rangeMatch n r = (MATERIAL_TYPE_CONFIG cat).rangeMatch n r2 := by
  obtain ⟨h1, h2, h3, h4⟩ := h
  cases cat <;> simp [MATERIAL_TYPE_CONFIG, h1, h2]

lemma findMatchingSpec_core (cat : Category) (n : PNum) {rows rows2 : List ToleranceRow}
    (h : List.Forall₂ rowCoreEq rows rows2) :
    optRowCoreEq (findMatchingSpec n rows (MATERIAL_TYPE_CONFIG cat).rangeMatch)
      (findMatchingSpec n rows2 (MATERIAL_TYPE_CONFIG cat).rangeMatch) := by
  induction h with
  | nil => trivial
  | @cons a b l1 l2 hab htail ih =>
    unfold findMatchingSpec at ih ⊢
    cases hpa : (MATERIAL_TYPE_CONFIG cat).rangeMatch n a with
    | true =>
      have hpb : (MATERIAL_TYPE_CONFIG cat).rangeMatch n b = true := by
        rw [← rangeMatch_core cat n hab]; exact hpa
      rw [List.find?_cons_of_pos _ hpa, List.find?_cons_of_pos _ hpb]
      exact hab
    | false =>
      have hpb : (MATERIAL_TYPE_CONFIG cat).rangeMatch n b = false := by
        rw [← rangeMatch_core cat n hab]; exact hpa
      rw [List.find?_cons_of_neg _ (by simp [hpa]), List.find?_cons_of_neg _ (by simp [hpb])]
      exact ih

lemma processMeasurement_core (cat : Category) (m : Meas) {rows rows2 : List ToleranceRow}
    (h : List.Forall₂ rowCoreEq rows rows2) :
    exResAgree (processMeasurement (some cat) rows m)
      (processMeasurement (some cat) rows2 m) := by
  unfold processMeasurement
  cases hv : isValidMeasurement m with
  | false => simp [hv, exResAgree]
  | true =>
    simp only [hv, Bool.true_eq_false, if_false]
    set nom := (match parseNominalFromMeasurement m cat ⟨9, 10⟩ with
      | .ok n => n
      | .error _ => PNum.vnan) with hnom
    have hf := findMatchingSpec_core cat nom h
    cases h1 : findMatchingSpec nom rows (MATERIAL_TYPE_CONFIG cat).rangeMatch with
    | none =>
      cases h2 : findMatchingSpec nom rows2 (MATERIAL_TYPE_CONFIG cat).rangeMatch with
      | none => simp [h1, h2, exResAgree]
      | some r2 => rw [h1, h2] at hf; exact hf.elim
    | some r1 =>
      cases h2 : findMatchingSpec nom rows2 (MATERIAL_TYPE_CONFIG cat).rangeMatch with
      | none => rw [h1, h2] at hf; exact hf.elim
      | some r2 =>
        rw [h1, h2] at hf
        obtain ⟨hm1, hm2, hu, hl⟩ := hf
        have hb : calculateComputedBounds nom r1 = calculateComputedBounds nom r2 := by
          unfold calculateComputedBounds
          rw [hu, hl]
        simp only [h1, h2]
        unfold exResAgree singleResAgree
        refine ⟨rfl, rfl, rfl, rfl, by rw [hb], by rw [hb]⟩

lemma processOne_core (cat : Category) (m : Meas) {rows rows2 : List ToleranceRow}
    (h : List.Forall₂ rowCoreEq rows rows2) :
    oneITOf (processOneMeasurement (some cat) rows m) =
      oneITOf (processOneMeasurement (some cat) rows2 m) ∧
    oneSpecOf (processOneMeasurement (some cat) rows m) =
      oneSpecOf (processOneMeasurement (some cat) rows2 m) := by
  have hpm := processMeasurement_core cat m h
  unfold processOneMeasurement
  cases hv : isValidMeasurement m with
  | false => simp [hv]
  | true =>
    simp only [hv, Bool.true_eq_false, if_false]
    cases h1 : processMeasurement (some cat) rows m with
    | error e1 =>
      cases h2 : processMeasurement (some cat) rows2 m with
      | error e2 => simp [oneITOf, oneSpecOf]
      | ok b => rw [h1, h2] at hpm; exact hpm.elim
    | ok a =>
      cases h2 : processMeasurement (some cat) rows2 m with
      | error e2 => rw [h1, h2] at hpm; exact hpm.elim
      | ok b =>
        rw [h1, h2] at hpm
        obtain ⟨hq1, hq2, hq3, hq4, hq5, hq6⟩ := hpm
        simp [oneITOf, oneSpecOf, hq6]

/-- Claim C9.  In every successful result of `checkOneMeasurementFor` the
`meets_IT_tolerance` field is exactly a copy of the specification verdict
(`meets_specification.meetsSpec`); and the single-measurement path never
reads an IT-grade magnitude from the matched row: both verdict fields are
invariant under arbitrary changes of the IT fields of the row list
(`rowCoreEq` relates rows equal on everything except IT magnitudes). -/
theorem c9_single_it_is_copy :
    (∀ (mt : MatVal) (m : Meas) (tbl : TolTable) (b : Bool),
      oneITOf (checkOneMeasurementFor mt m tbl) = some b →
      oneSpecOf (checkOneMeasurementFor mt m tbl) = some b) ∧
    (∀ (cat : Category) (rows rows2 : List ToleranceRow) (m : Meas),
      List.Forall₂ rowCoreEq rows rows2 →
      oneITOf (processOneMeasurement (some cat) rows m) =
        oneITOf (processOneMeasurement (some cat) rows2 m) ∧
      oneSpecOf (processOneMeasurement (some cat) rows m) =
        oneSpecOf (processOneMeasurement (some cat) rows2 m)) := by
  constructor
  · intro mt m tbl b h
    cases hco : checkOneMeasurementFor mt m tbl with
    | err e => rw [hco] at h; simp [oneITOf] at h
    | thrown => rw [hco] at h; simp [oneITOf] at h
    | ok o =>
      rw [hco] at h
      simp only [oneITOf, Option.some.injEq] at h
      simp only [oneSpecOf, Option.some.injEq]
      rw [← h]
      unfold checkOneMeasurementFor processOneMeasurement at hco
      repeat' split at hco
      all_goals
        first
        | (exfalso; simp at hco; done)
        | (injection hco with h2; subst h2; rfl)
  · intro cat rows rows2 m h
    exact processOne_core cat m h

/-- Witness for C9: the spec scenario `checkOneMeasurementFor("shaft",
24.982)` for the copy property, and the same shaft row with its IT
magnitudes replaced for the invariance property. -/
theorem c9_single_it_is_copy_witness :
    oneSpecOf (checkOneMeasurementFor (.jstr "shaft".data) (.num (qMk 12491 500)) sampleTable) =
      some true ∧
    oneITOf (processOneMeasurement (some .shafts) [shaftRow] (.num (qMk 12491 500))) =
      oneITOf (processOneMeasurement (some .shafts)
        [⟨qMk 18 1, qMk 30 1, qZero, qMk (-30) 1000, qMk 999 1, qMk 999 1⟩]
        (.num (qMk 12491 500))) :=
  ⟨c9_single_it_is_copy.1 (.jstr "shaft".data) (.num (qMk 12491 500)) sampleTable true
      (by decide),
   (c9_single_it_is_copy.2 .shafts [shaftRow]
      [⟨qMk 18 1, qMk 30 1, qZero, qMk (-30) 1000, qMk 999 1, qMk 999 1⟩]
      (.num (qMk 12491 500))
      (List.Forall₂.cons ⟨rfl, rfl, rfl, rfl⟩ List.Forall₂.nil)).1⟩

lemma all_filterMap_exOk (items : List (Except ErrVal SingleResult))
    (h : items.any exIsErr = false) :
    (items.filterMap exOk).all (fun r => r.meetsSpec) = items.all itemMeets := by
  induction items with
  | nil => rfl
  | cons x l ih =>
    cases x with
    | error e => simp [exIsErr] at h
    | ok r =>
      simp only [List.any_cons, Bool.or_eq_false_iff] at h
      simp [List.filterMap_cons, exOk, itemMeets, ih h.2]

/-- Claim C6.  For every batch call that produces a result (so all items
were evaluated without error), `meets_final_compliance` is true exactly
when every individual item passes its own bound check (`itemMeets` on
every item of the recomputed per-item list — all of them, not just the
farthest one) and the spread-vs-IT verdict of the same call is true. -/
theorem c6_final_compliance_iff (mt : MatVal) (ms : List Meas) (tbl : TolTable)
    (camco : CamcoTolerances) (b : Bool)
    (hc : getCamcoStandardTolerancesFor mt tbl = .ok camco)
    (hb : batchFinalOf (checkMultipleMeasurementsFor mt (.marr ms) tbl) = some b) :
    b = true ↔
      (allItemsMeetSpecB (some camco.type) camco.specification ms = true ∧
       batchITOf (checkMultipleMeasurementsFor mt (.marr ms) tbl) = some true) := by
  cases hcm : checkMultipleMeasurementsFor mt (.marr ms) tbl with
  | err e => rw [hcm] at hb; simp [batchFinalOf] at hb
  | thrown => rw [hcm] at hb; simp [batchFinalOf] at hb
  | ok r =>
    rw [hcm] at hb
    simp only [batchFinalOf, Option.some.injEq] at hb
    subst hb
    simp only [batchITOf, Option.some.injEq]
    simp only [checkMultipleMeasurementsFor] at hcm
    split at hcm
    · simp at hcm
    · split at hcm
      · simp at hcm
      · split at hcm
        next heq => rw [hc] at heq; simp at heq
        next heq => rw [hc] at heq; simp at heq
        next camco2 heq =>
          rw [hc] at heq
          injection heq with heq2
          subst heq2
          unfold runBatch runBatchAux at hcm
          split at hcm
          · simp at hcm
          next hA =>
            dsimp only at hcm
            split at hcm
            · simp at hcm
            next kk hk =>
              split at hcm
              · simp at hcm
              next baseSpec hbase =>
                injection hcm with h2
                rw [← h2]
                simp only []
                rw [all_filterMap_exOk _ (by simpa using hA)]
                simp only [allItemsMeetSpecB]
                constructor
                · intro hand
                  have hand2 := hand
                  rw [Bool.and_eq_true] at hand2
                  exact ⟨hand2.2, hand2.1⟩
                · intro hand
                  rw [Bool.and_eq_true]
                  exact ⟨hand.2, hand.1⟩

/-- Witness for C6: a one-element housing batch whose final compliance is
true, with both conjuncts checked concretely. -/
theorem c6_final_compliance_iff_witness :
    true = true ↔
      (allItemsMeetSpecB (some .housingBores) [hRow1, hRow2, hRow3] [.num (qMk 5 1)] = true ∧
       batchITOf (checkMultipleMeasurementsFor (.jstr "housing".data)
         (.marr [.num (qMk 5 1)]) sampleTable) = some true) :=
  c6_final_compliance_iff (.jstr "housing".data) [.num (qMk 5 1)] sampleTable
    ⟨.housingBores, [hRow1, hRow2, hRow3]⟩ true (by decide) (by decide)

lemma processMeasurement_meas_congr (mtOpt : Option Category) (rows : List ToleranceRow)
    (m1 m2 : Meas)
    (hv : isValidMeasurement m1 = isValidMeasurement m2)
    (hn : toNumberM m1 = toNumberM m2)
    (hp : parseStringFloat m1 = parseStringFloat m2) :
    processMeasurement mtOpt rows m1 = processMeasurement mtOpt rows m2 := by
  unfold processMeasurement parseNominalFromMeasurement checkMeetsSpecification
  rw [hv, hn, hp]

lemma processIndividual_meas_congr (mtOpt : Option Category) (rows : List ToleranceRow)
    (m1 m2 : Meas)
    (hv : isValidMeasurement m1 = isValidMeasurement m2)
    (hn : toNumberM m1 = toNumberM m2)
    (hp : parseStringFloat m1 = parseStringFloat m2) :
    processIndividualMeasurement mtOpt rows m1 = processIndividualMeasurement mtOpt rows m2 := by
  unfold processIndividualMeasurement
  rw [hv, processMeasurement_meas_congr mtOpt rows m1 m2 hv hn hp]

lemma runBatchAux_echo (ms1 ms2 : List Meas) (nums : List PNum)
    (items : List (Except ErrVal SingleResult)) :
    (runBatchAux ms1 nums items).mapOk eraseEcho =
      (runBatchAux ms2 nums items).mapOk eraseEcho := by
  unfold runBatchAux
  dsimp only
  split
  · rfl
  · split
    · rfl
    · split
      · rfl
      · rfl

/-- Claim C10.  For a numeric string `s` (its whole text is a decimal
literal of value `q`, so JS coercion and `parseFloat` agree) with
`0 ≤ q < 1000`, and a material type that resolves:
`checkOneMeasurementFor` rejects the string with the
`Invalid measurement value` error because of its number-type guard, while
`checkMultipleMeasurementsFor` accepts it as a valid item (its per-item
validity pass reports no offending index) and evaluates the batch exactly
as it would evaluate the number `q` — the outcomes agree on every field
except the echoed raw input array.  The two public operations therefore
disagree on whether numeric strings are valid measurements. -/
theorem c10_numeric_string_disagreement (mtS s : List Char) (q : JQ) (tbl : TolTable)
    (camco : CamcoTolerances)
    (htn : toNumberStr s = .vnum q)
    (hpf : parseFloatStr s = .vnum q)
    (h0 : qLe qZero q = true)
    (h1 : qLt q ⟨1000, 1⟩ = true)
    (hc : getCamcoStandardTolerancesFor (.jstr mtS) tbl = .ok camco) :
    checkOneMeasurementFor (.jstr mtS) (.str s) tbl = .err .invalidMeasurementValue ∧
    invalidIndices [.str s] = [] ∧
    (checkMultipleMeasurementsFor (.jstr mtS) (.marr [.str s]) tbl).mapOk eraseEcho =
      (checkMultipleMeasurementsFor (.jstr mtS) (.marr [.num q]) tbl).mapOk eraseEcho := by
  have hvs : isValidMeasurement (.str s) = true := by
    simp only [isValidMeasurement, parseFloatM, hpf]
    rw [h0, h1]
    rfl
  have hvn : isValidMeasurement (.num q) = true := by
    simp only [isValidMeasurement, parseFloatM]
    rw [h0, h1]
    rfl
  have hveq : isValidMeasurement (.str s) = isValidMeasurement (.num q) := by rw [hvs, hvn]
  have hneq : toNumberM (.str s) = toNumberM (.num q) := by simp only [toNumberM, htn]
  have hpeq : parseStringFloat (.str s) = parseStringFloat (.num q) := by
    simp only [parseStringFloat, hpf]
  refine ⟨?_, ?_, ?_⟩
  · simp only [checkOneMeasurementFor, hvs, Bool.true_eq_false, if_false]
    rw [hc]
    simp [measIsNumberType]
  · simp [invalidIndices, hvs]
  · have hpi : processIndividualMeasurement (some camco.type) camco.specification (.str s) =
        processIndividualMeasurement (some camco.type) camco.specification (.num q) :=
      processIndividual_meas_congr _ _ _ _ hveq hneq hpeq
    have hbad1 : invalidIndices [Meas.str s] = [] := by simp [invalidIndices, hvs]
    have hbad2 : invalidIndices [Meas.num q] = [] := by simp [invalidIndices, hvn]
    simp only [checkMultipleMeasurementsFor, hbad1, hbad2]
    rw [hc]
    simp only [List.isEmpty_cons, Bool.false_eq_true, if_false, List.isEmpty_nil,
      Bool.not_true, runBatch, List.map_cons, List.map_nil]
    rw [hneq, hpi]
    exact runBatchAux_echo _ _ _ _

/-- Witness for C10 at the numeric string `"25.5"` against the housing
category of the sample table. -/
theorem c10_numeric_string_disagreement_witness :
    toNumberStr "25.5".data = .vnum (qMk 51 2) ∧
    checkOneMeasurementFor (.jstr "housing".data) (.str "25.5".data) sampleTable =
      .err .invalidMeasurementValue ∧
    invalidIndices [.str "25.5".data] = [] ∧
    (checkMultipleMeasurementsFor (.jstr "housing".data) (.marr [.str "25.5".data])
        sampleTable).mapOk eraseEcho =
      (checkMultipleMeasurementsFor (.jstr "housing".data) (.marr [.num (qMk 51 2)])
        sampleTable).mapOk eraseEcho :=
  ⟨by decide,
   c10_numeric_string_disagreement "housing".data "25.5".data (qMk 51 2) sampleTable
     ⟨.housingBores, [hRow1, hRow2, hRow3]⟩ (by decide) (by decide) (by decide) (by decide)
     (by decide)⟩
